import Mathlib

/-!
Verification of the retrieval-and-context-assembly pipeline of a
guideline-search application.  The Python source is shallowly embedded:
text is `List Char`, similarity scores are `ℚ`, dictionaries returned by
the vector store become structures, fallible store calls become
`Except String` values, and the one place where the source reads
possibly-missing dictionary keys is modelled with `Option` fields.
-/

namespace GdprApp

/-- A row of the `guideline_matches_table` built in
`SupabaseManager.search_similar_chunks`: the projection
`{id, similarity}` of a summary match. -/
structure GuidelineMatch where
  id : Nat
  similarity : ℚ
  deriving DecidableEq

/-- A document-summary match returned by the stage-1 search
(`match_guidelines` RPC): the fields the pipeline reads. -/
structure SummaryMatch where
  id : Nat
  similarity : ℚ
  deriving DecidableEq

/-- A neighbouring context window of a matched chunk
(`context_chunks` entries with `chunk_id` and `content`). -/
structure ContextChunk where
  chunk_id : Nat
  content : List Char
  deriving DecidableEq

/-- A chunk-level match returned by the stage-2 search
(`match_chunks_with_context` RPC). -/
structure ChunkMatch where
  id : Nat
  guideline_id : Nat
  content : List Char
  similarity : ℚ
  context_chunks : List ContextChunk
  deriving DecidableEq

/-- Guideline metadata as read by `LLMManager._build_context`:
`title` and `version` are accessed with `meta[...]` (required),
`adopted_date` with `meta.get(..., defaulting to N/A)`. -/
structure Metadata where
  title : List Char
  version : List Char
  adopted_date : Option (List Char)
  deriving DecidableEq

/-- `s` occurs at the end of `A` (Python `A.endswith(s)`). -/
def endsWith (A s : List Char) : Prop := ∃ u, u ++ s = A

/-- `s` occurs at the start of `B` (Python `B.startswith(s)`). -/
def startsWith (B s : List Char) : Prop := ∃ v, s ++ v = B

instance (A s : List Char) : Decidable (endsWith A s) := by
  unfold endsWith
  by_cases h : A.drop (A.length - s.length) = s ∧ s.length ≤ A.length
  · exact .isTrue ⟨A.take (A.length - s.length), by
      conv_rhs => rw [← List.take_append_drop (A.length - s.length) A]
      rw [h.1]⟩
  · refine .isFalse ?_
    rintro ⟨u, rfl⟩
    exact h ⟨by simp, by simp⟩

instance (B s : List Char) : Decidable (startsWith B s) := by
  unfold startsWith
  by_cases h : B.take s.length = s
  · exact .isTrue ⟨B.drop s.length, by
      conv_rhs => rw [← List.take_append_drop s.length B]
      rw [h]⟩
  · refine .isFalse ?_
    rintro ⟨v, rfl⟩
    exact h (by simp)

/-- Python slice `t[-l:]` for `l ≤ len t` (note `t[-0:]` is all of `t`). -/
def pyTail (t : List Char) (l : Nat) : List Char :=
  if l = 0 then t else t.drop (t.length - l)

/-- Python slice `t[:-(n)]` for `n ≥ 1`: drop the last `n` characters. -/
def pyDropLast (t : List Char) (n : Nat) : List Char :=
  t.take (t.length - n)

/-- The loop of `find_overlap`, counting `length` down from the fuel
argument: `for length in range(start, min_length - 1, -1)` with body
`if text1[-length:] == text2[:length]: return text2[:length]`. -/
def findOverlapFrom (t1 t2 : List Char) (minLength : Nat) : Nat → List Char
  | 0 =>
    if minLength = 0 then (if pyTail t1 0 = t2.take 0 then t2.take 0 else []) else []
  | l + 1 =>
    if l + 1 < minLength then []
    else if pyTail t1 (l + 1) = t2.take (l + 1) then t2.take (l + 1)
    else findOverlapFrom t1 t2 minLength l

/-- `find_overlap(text1, text2, min_length=50)` from `app.py`: longest
common trailing part of `t1` and leading part of `t2`, searched from
`min(len(t1), len(t2))` down to `minLength`, else empty. -/
def find_overlap (t1 t2 : List Char) (minLength : Nat := 50) : List Char :=
  findOverlapFrom t1 t2 minLength (min t1.length t2.length)

example : find_overlap "hello world".data "world peace".data 5 = "world".data := by decide

example : find_overlap "ab".data "ba".data 3 = [] := by decide

lemma endsWith_length_le {A s : List Char} (h : endsWith A s) : s.length ≤ A.length := by
  obtain ⟨u, rfl⟩ := h
  simp

lemma startsWith_length_le {B s : List Char} (h : startsWith B s) : s.length ≤ B.length := by
  obtain ⟨v, rfl⟩ := h
  simp

/-- If the slice comparison of `find_overlap` succeeds at length `L ≥ 1`,
the returned text `t2.take L` is a common trailing/leading part. -/
lemma check_to_common {t1 t2 : List Char} {L : Nat} (h1 : 1 ≤ L) (hL2 : L ≤ t2.length)
    (hc : pyTail t1 L = t2.take L) :
    endsWith t1 (t2.take L) ∧ startsWith t2 (t2.take L) ∧ (t2.take L).length = L := by
  refine ⟨⟨t1.take (t1.length - L), ?_⟩, ⟨t2.drop L, by simp⟩, by simp [hL2]⟩
  rw [← hc]
  unfold pyTail
  rw [if_neg (by omega)]
  exact List.take_append_drop _ _

/-- Conversely, a nonempty common trailing/leading part `s` makes the
slice comparison succeed at length `s.length`. -/
lemma common_to_check {t1 t2 s : List Char} (he : endsWith t1 s) (hs : startsWith t2 s)
    (h1 : 1 ≤ s.length) :
    pyTail t1 s.length = t2.take s.length ∧ t2.take s.length = s := by
  obtain ⟨u, hu⟩ := he
  obtain ⟨v, hv⟩ := hs
  have htake : t2.take s.length = s := by
    rw [← hv, List.take_left]
  refine ⟨?_, htake⟩
  rw [htake]
  unfold pyTail
  rw [if_neg (by omega)]
  have hlen : t1.length - s.length = u.length := by
    rw [← hu]
    simp
  rw [hlen, ← hu, List.drop_left]

lemma findOverlapFrom_zero (t1 t2 : List Char) (k : Nat) :
    findOverlapFrom t1 t2 k 0 =
      if k = 0 then (if pyTail t1 0 = t2.take 0 then t2.take 0 else []) else [] := rfl

lemma findOverlapFrom_succ (t1 t2 : List Char) (k l : Nat) :
    findOverlapFrom t1 t2 k (l + 1) =
      if l + 1 < k then []
      else if pyTail t1 (l + 1) = t2.take (l + 1) then t2.take (l + 1)
      else findOverlapFrom t1 t2 k l := rfl

/-- Loop invariant of `find_overlap`: running the countdown from `l`
returns the longest common part of length in `[k, l]`, or `[]` if none
exists. -/
lemma findOverlapFrom_spec (t1 t2 : List Char) (k : Nat) (hk : 1 ≤ k) :
    ∀ l, l ≤ t2.length →
    (findOverlapFrom t1 t2 k l ≠ [] →
      endsWith t1 (findOverlapFrom t1 t2 k l) ∧ startsWith t2 (findOverlapFrom t1 t2 k l) ∧
      k ≤ (findOverlapFrom t1 t2 k l).length ∧
      ∀ s, endsWith t1 s → startsWith t2 s → s.length ≤ l →
        s.length ≤ (findOverlapFrom t1 t2 k l).length) ∧
    (findOverlapFrom t1 t2 k l = [] →
      ∀ s, endsWith t1 s → startsWith t2 s → s.length ≤ l → s.length < k) := by
  intro l
  induction l with
  | zero =>
    intro _
    have h0 : findOverlapFrom t1 t2 k 0 = [] := by
      rw [findOverlapFrom_zero, if_neg (by omega)]
    constructor
    · intro hne
      exact absurd h0 hne
    · intro _ s _ _ hlen
      omega
  | succ l ih =>
    intro hl2
    have ihl := ih (by omega)
    by_cases hk1 : l + 1 < k
    · have h0 : findOverlapFrom t1 t2 k (l + 1) = [] := by
        rw [findOverlapFrom_succ, if_pos hk1]
      constructor
      · intro hne
        exact absurd h0 hne
      · intro _ s _ _ hlen
        omega
    · by_cases hc : pyTail t1 (l + 1) = t2.take (l + 1)
      · have hr : findOverlapFrom t1 t2 k (l + 1) = t2.take (l + 1) := by
          rw [findOverlapFrom_succ, if_neg hk1, if_pos hc]
        obtain ⟨he, hs, hlen⟩ := @check_to_common t1 t2 (l + 1) (by omega) hl2 hc
        constructor
        · intro _
          rw [hr]
          exact ⟨he, hs, by omega, fun s _ _ hsl => by omega⟩
        · intro h0
          rw [hr] at h0
          have : (t2.take (l + 1)).length = 0 := by rw [h0]; rfl
          omega
      · have hr : findOverlapFrom t1 t2 k (l + 1) = findOverlapFrom t1 t2 k l := by
          rw [findOverlapFrom_succ, if_neg hk1, if_neg hc]
        have hnot : ∀ s, endsWith t1 s → startsWith t2 s → s.length ≠ l + 1 := by
          intro s he hs hsl
          have := common_to_check he hs (by omega)
          rw [hsl] at this
          exact hc this.1
        rw [hr]
        constructor
        · intro hne
          obtain ⟨he, hs, hke, hmax⟩ := ihl.1 hne
          refine ⟨he, hs, hke, fun s hse hss hsl => ?_⟩
          have := hnot s hse hss
          exact hmax s hse hss (by omega)
        · intro h0 s hse hss hsl
          have := hnot s hse hss
          exact ihl.2 h0 s hse hss (by omega)

/-- Claim C2: `find_overlap(A, B, k)` with `k ≥ 1` either returns a
nonempty `r` that is a trailing part of `A`, a leading part of `B`, of
length at least `k`, such that no longer common trailing/leading part
exists; or returns empty, in which case every common trailing/leading
part is shorter than `k` (in particular it returns empty whenever
either text is shorter than `k`). -/
theorem find_overlap_correct (A B : List Char) (k : Nat) (hk : 1 ≤ k) :
    (find_overlap A B k ≠ [] →
      endsWith A (find_overlap A B k) ∧ startsWith B (find_overlap A B k) ∧
      k ≤ (find_overlap A B k).length ∧
      ∀ s, endsWith A s → startsWith B s → s.length ≤ (find_overlap A B k).length) ∧
    (find_overlap A B k = [] →
      ∀ s, endsWith A s → startsWith B s → s.length < k) ∧
    (min A.length B.length < k → find_overlap A B k = []) := by
  have hspec := findOverlapFrom_spec A B k hk (min A.length B.length) (by omega)
  have hbound : ∀ s : List Char, endsWith A s → startsWith B s →
      s.length ≤ min A.length B.length := by
    intro s he hs
    have := endsWith_length_le he
    have := startsWith_length_le hs
    omega
  refine ⟨?_, ?_, ?_⟩
  · intro hne
    obtain ⟨he, hs, hke, hmax⟩ := hspec.1 hne
    exact ⟨he, hs, hke, fun s hse hss => hmax s hse hss (hbound s hse hss)⟩
  · intro h0 s hse hss
    exact hspec.2 h0 s hse hss (hbound s hse hss)
  · intro hmin
    by_contra hne
    obtain ⟨he, hs, hke, _⟩ := hspec.1 hne
    have := hbound _ he hs
    omega

/-- Witness for C2 at the concrete boundary example. -/
theorem find_overlap_correct_witness :
    find_overlap "hello world".data "world peace".data 5 ≠ [] ∧
    5 ≤ (find_overlap "hello world".data "world peace".data 5).length :=
  ⟨by decide, ((find_overlap_correct "hello world".data "world peace".data 5
    (by decide)).1 (by decide)).2.2.1⟩

/-!  Ranking and filtering (app.py line 111 and the display loop). -/

/-- Comparison used by `sorted(context_chunks, key=similarity, reverse=True)`:
`a` may come before `b` when the similarity of `b` is at most that of `a`. -/
def simGe (a b : ChunkMatch) : Prop := b.similarity ≤ a.similarity

instance : DecidableRel simGe :=
  fun a b => inferInstanceAs (Decidable (b.similarity ≤ a.similarity))

instance : IsTotal ChunkMatch simGe := ⟨fun a b => le_total b.similarity a.similarity⟩

instance : IsTrans ChunkMatch simGe := ⟨fun _ _ _ h1 h2 => le_trans h2 h1⟩

/-- `sorted(context_chunks, key=lambda x: x[similarity], reverse=True)`:
a stable descending sort by similarity. -/
def sortBySimilarityDesc (l : List ChunkMatch) : List ChunkMatch :=
  List.insertionSort simGe l

/-- app.py line 111: keep the chunks whose similarity reaches the
chunk threshold. -/
def filteredChunks (chunks : List ChunkMatch) (chunkThreshold : ℚ) : List ChunkMatch :=
  chunks.filter (fun c => decide (chunkThreshold ≤ c.similarity))

/-- The composed rank-and-filter behaviour of the source: threshold
filter (line 111), stable descending sort, then keep the top 5
(`sorted_chunks[:5]` in the display loop). -/
def rank_and_filter (chunks : List ChunkMatch) (chunkThreshold : ℚ) : List ChunkMatch :=
  (sortBySimilarityDesc (filteredChunks chunks chunkThreshold)).take 5

/-- The display loop applied to an already-filtered list: sort, keep the
top 5, and skip any chunk whose similarity is below the threshold
(the `continue` re-check). -/
def displayedChunks (filtered : List ChunkMatch) (chunkThreshold : ℚ) : List ChunkMatch :=
  ((sortBySimilarityDesc filtered).take 5).filter
    (fun c => !decide (c.similarity < chunkThreshold))

/-- Inserting one element keeps the sublist of any fixed similarity
value intact, with the new element in front when it has that value:
the skipped elements all have strictly larger similarity. -/
lemma filter_orderedInsert_sim (v : ℚ) (a : ChunkMatch) (l : List ChunkMatch) :
    (List.orderedInsert simGe a l).filter (fun c => decide (c.similarity = v)) =
      if a.similarity = v then
        a :: l.filter (fun c => decide (c.similarity = v))
      else l.filter (fun c => decide (c.similarity = v)) := by
  induction l with
  | nil =>
    by_cases ha : a.similarity = v <;> simp [List.orderedInsert, List.filter, ha]
  | cons b l ih =>
    by_cases hab : simGe a b
    · rw [List.orderedInsert, if_pos hab]
      by_cases ha : a.similarity = v <;>
        simp [List.filter, ha]
    · rw [List.orderedInsert, if_neg hab]
      have hb : b.similarity > a.similarity := by
        simp only [simGe, not_le] at hab
        exact hab
      by_cases ha : a.similarity = v
      · have hbv : ¬ b.similarity = v := by
          intro h
          rw [ha] at hb
          rw [h] at hb
          exact lt_irrefl v hb
        simp [List.filter, hbv, ih, ha]
      · by_cases hbv : b.similarity = v <;> simp [List.filter, hbv, ih, ha]

/-- Stability of the descending sort: for every similarity value the
sublist of chunks carrying that value is unchanged, hence ties keep
their original relative order. -/
lemma filter_sortBySimilarityDesc (v : ℚ) (l : List ChunkMatch) :
    (sortBySimilarityDesc l).filter (fun c => decide (c.similarity = v)) =
      l.filter (fun c => decide (c.similarity = v)) := by
  induction l with
  | nil => rfl
  | cons a l ih =>
    rw [sortBySimilarityDesc] at ih
    rw [sortBySimilarityDesc, List.insertionSort, filter_orderedInsert_sim]
    by_cases ha : a.similarity = v <;>
      simp [List.filter, ha, ih]

/-- A chunk match with given id and similarity (other fields empty). -/
def mkChunk (i : Nat) (sim : ℚ) : ChunkMatch := ⟨i, 0, [], sim, []⟩

/-- The four matches with similarities 0.9, 0.3, 0.9, 0.5 named by the claim. -/
def exampleFour : List ChunkMatch :=
  [mkChunk 1 (mkRat 9 10), mkChunk 2 (mkRat 3 10), mkChunk 3 (mkRat 9 10), mkChunk 4 (mkRat 1 2)]

/-- Eight qualifying matches, in scrambled similarity order. -/
def exampleEight : List ChunkMatch :=
  [mkChunk 1 (mkRat 1 2), mkChunk 2 (mkRat 4 5), mkChunk 3 (mkRat 3 5), mkChunk 4 (mkRat 9 10),
   mkChunk 5 (mkRat 1 10), mkChunk 6 (mkRat 7 10), mkChunk 7 (mkRat 1 5), mkChunk 8 1]

lemma mem_rank_and_filter {chunks : List ChunkMatch} {th : ℚ} {c : ChunkMatch}
    (hc : c ∈ rank_and_filter chunks th) : th ≤ c.similarity ∧ c ∈ chunks := by
  have h1 : c ∈ sortBySimilarityDesc (filteredChunks chunks th) :=
    List.mem_of_mem_take hc
  have h2 : c ∈ filteredChunks chunks th :=
    (List.mem_insertionSort simGe).mp h1
  have h3 := List.mem_filter.mp h2
  exact ⟨of_decide_eq_true h3.2, h3.1⟩

lemma sorted_rank_and_filter (chunks : List ChunkMatch) (th : ℚ) :
    List.Sorted simGe (rank_and_filter chunks th) :=
  List.Pairwise.sublist (List.take_sublist 5 _)
    (List.sorted_insertionSort simGe (filteredChunks chunks th))

/-- Claim C5: the rank-and-filter pipeline keeps exactly the matches
with similarity at least the chunk threshold, orders them by similarity
descending with ties in original retrieval order (stable sort), and
truncates to the top 5; in particular it maps the similarities
`[0.9, 0.3, 0.9, 0.5]` under threshold `0.4` to the two `0.9` matches in
original relative order followed by the `0.5` match, and keeps exactly
the 5 highest of 8 qualifying matches. -/
theorem rank_and_filter_spec (chunks : List ChunkMatch) (th : ℚ) :
    (sortBySimilarityDesc (filteredChunks chunks th)).Perm (filteredChunks chunks th) ∧
    List.Sorted simGe (sortBySimilarityDesc (filteredChunks chunks th)) ∧
    (∀ v : ℚ, (sortBySimilarityDesc (filteredChunks chunks th)).filter
        (fun c => decide (c.similarity = v)) =
      (filteredChunks chunks th).filter (fun c => decide (c.similarity = v))) ∧
    rank_and_filter chunks th = (sortBySimilarityDesc (filteredChunks chunks th)).take 5 ∧
    (rank_and_filter chunks th).length = min 5 (filteredChunks chunks th).length ∧
    (∀ c ∈ rank_and_filter chunks th, th ≤ c.similarity ∧ c ∈ chunks) ∧
    (∀ c ∈ rank_and_filter chunks th,
      ∀ d ∈ (sortBySimilarityDesc (filteredChunks chunks th)).drop 5,
        d.similarity ≤ c.similarity) ∧
    rank_and_filter exampleFour (mkRat 2 5) =
      [mkChunk 1 (mkRat 9 10), mkChunk 3 (mkRat 9 10), mkChunk 4 (mkRat 1 2)] ∧
    rank_and_filter exampleEight (mkRat 1 10) =
      [mkChunk 8 1, mkChunk 4 (mkRat 9 10), mkChunk 2 (mkRat 4 5),
       mkChunk 6 (mkRat 7 10), mkChunk 3 (mkRat 3 5)] := by
  refine ⟨List.perm_insertionSort simGe _, List.sorted_insertionSort simGe _,
    fun v => filter_sortBySimilarityDesc v _, rfl, ?_,
    fun c hc => mem_rank_and_filter hc, ?_, by decide, by decide⟩
  · rw [rank_and_filter, List.length_take, sortBySimilarityDesc, List.length_insertionSort]
  · intro c hc d hd
    exact List.Sorted.rel_of_mem_take_of_mem_drop
      (List.sorted_insertionSort simGe (filteredChunks chunks th)) hc hd

/-- Witness for C5: the top match of the four-element example passes the
threshold and came from the input list. -/
theorem rank_and_filter_spec_witness :
    mkRat 2 5 ≤ (mkChunk 1 (mkRat 9 10)).similarity ∧ mkChunk 1 (mkRat 9 10) ∈ exampleFour :=
  (rank_and_filter_spec exampleFour (mkRat 2 5)).2.2.2.2.2.1
    (mkChunk 1 (mkRat 9 10)) (by decide)

/-- Claim C8: rank-and-filter is idempotent: applying the
filter-sort-truncate pipeline a second time with the same threshold
returns the same sequence. -/
theorem rank_and_filter_idem (chunks : List ChunkMatch) (th : ℚ) :
    rank_and_filter (rank_and_filter chunks th) th = rank_and_filter chunks th := by
  have h1 : filteredChunks (rank_and_filter chunks th) th = rank_and_filter chunks th :=
    List.filter_eq_self.mpr
      (fun c hc => decide_eq_true (mem_rank_and_filter hc).1)
  have h2 : sortBySimilarityDesc (rank_and_filter chunks th) = rank_and_filter chunks th :=
    List.Sorted.insertionSort_eq (sorted_rank_and_filter chunks th)
  have h3 : (rank_and_filter chunks th).length ≤ 5 := by
    rw [rank_and_filter]
    exact List.length_take_le 5 _
  rw [rank_and_filter, h1, h2, List.take_of_length_le h3]

/-- Claim C10: every chunk reaching the display loop already satisfies
the threshold, so the display-time re-check (`continue` on
`similarity < chunk_threshold`) never fires and the second filter is a
no-op. -/
theorem display_recheck_noop (chunks : List ChunkMatch) (th : ℚ) :
    displayedChunks (filteredChunks chunks th) th =
      (sortBySimilarityDesc (filteredChunks chunks th)).take 5 ∧
    ∀ c ∈ (sortBySimilarityDesc (filteredChunks chunks th)).take 5,
      ¬ (c.similarity < th) := by
  have hmem : ∀ c ∈ (sortBySimilarityDesc (filteredChunks chunks th)).take 5,
      ¬ (c.similarity < th) := by
    intro c hc
    exact not_lt.mpr (@mem_rank_and_filter chunks th c hc).1
  refine ⟨List.filter_eq_self.mpr (fun c hc => ?_), hmem⟩
  simpa using hmem c hc

/-- Witness for C10: the re-check is a no-op on the four-match example
and never fires on its top match. -/
theorem display_recheck_noop_witness :
    displayedChunks (filteredChunks exampleFour (mkRat 2 5)) (mkRat 2 5) =
      (sortBySimilarityDesc (filteredChunks exampleFour (mkRat 2 5))).take 5 ∧
    ¬ ((mkChunk 1 (mkRat 9 10)).similarity < mkRat 2 5) :=
  ⟨(display_recheck_noop exampleFour (mkRat 2 5)).1,
   (display_recheck_noop exampleFour (mkRat 2 5)).2 (mkChunk 1 (mkRat 9 10)) (by decide)⟩

/-!  Context-window stitching (the expander body of the display loop). -/

/-- Comparison for `sorted(context_chunks, key=lambda x: x[chunk_id])`. -/
def keyLe (a b : ContextChunk) : Prop := a.chunk_id ≤ b.chunk_id

/-- Strict version of `keyLe`, used to show sorting is unique when the
position keys are pairwise distinct. -/
def keyLt (a b : ContextChunk) : Prop := a.chunk_id < b.chunk_id

instance : DecidableRel keyLe :=
  fun a b => inferInstanceAs (Decidable (a.chunk_id ≤ b.chunk_id))

instance : IsTotal ContextChunk keyLe := ⟨fun a b => le_total a.chunk_id b.chunk_id⟩

instance : IsTrans ContextChunk keyLe := ⟨fun _ _ _ h1 h2 => le_trans h1 h2⟩

instance : IsAntisymm ContextChunk keyLt :=
  ⟨fun _ _ h1 h2 => absurd (lt_trans h1 h2) (lt_irrefl _)⟩

/-- `sorted(context_chunks, key=lambda x: x[chunk_id])`: stable
ascending sort by the position key. -/
def sortByChunkId (l : List ContextChunk) : List ContextChunk :=
  List.insertionSort keyLe l

/-- One non-anchor window of the stitching loop: strip the overlap with
the previous window (its original text) from the leading edge, then the
overlap of the already-stripped text with the next window from the
trailing edge. -/
def stripWindow (s : List ContextChunk) (i : Nat) (ctx : ContextChunk) : List Char :=
  let t0 := ctx.content
  let t1 := if 0 < i then
      match s[i - 1]? with
      | some prev =>
        let ov := find_overlap prev.content t0
        if ov = [] then t0 else t0.drop ov.length
      | none => t0
    else t0
  if i < s.length - 1 then
    match s[i + 1]? with
    | some next =>
      let ov := find_overlap t1 next.content
      if ov = [] then t1 else pyDropLast t1 ov.length
    | none => t1
  else t1

/-- The loop body applied to an already-sorted window list: the window
whose id equals the target id is emitted verbatim, every other window is
overlap-stripped against its neighbours. -/
def stitchSorted (targetId : Nat) (s : List ContextChunk) : List (List Char) :=
  (List.range s.length).map (fun i =>
    match s[i]? with
    | some ctx => if ctx.chunk_id = targetId then ctx.content else stripWindow s i ctx
    | none => [])

/-- The context stitcher of the display loop: sort the context chunks by
`chunk_id`, then emit each window, stripping overlaps only on non-anchor
windows. -/
def stitch (targetId : Nat) (contextChunks : List ContextChunk) : List (List Char) :=
  stitchSorted targetId (sortByChunkId contextChunks)

/-- Claim C3: any window carrying the target id is emitted verbatim at
its position, so whenever the context set contains the anchor chunk its
content appears untruncated in the stitched output. -/
theorem stitch_anchor (targetId : Nat) (ctxs : List ContextChunk) :
    (∀ (i : Nat) (ctx : ContextChunk),
      (sortByChunkId ctxs)[i]? = some ctx → ctx.chunk_id = targetId →
      (stitch targetId ctxs)[i]? = some ctx.content) ∧
    (∀ c ∈ ctxs, c.chunk_id = targetId → c.content ∈ stitch targetId ctxs) := by
  have hmain : ∀ (i : Nat) (ctx : ContextChunk),
      (sortByChunkId ctxs)[i]? = some ctx → ctx.chunk_id = targetId →
      (stitch targetId ctxs)[i]? = some ctx.content := by
    intro i ctx hget hid
    have hlt : i < (sortByChunkId ctxs).length := by
      by_contra hge
      rw [List.getElem?_eq_none (by omega)] at hget
      exact Option.noConfusion hget
    rw [stitch, stitchSorted, List.getElem?_map,
      List.getElem?_range hlt]
    simp [hget, hid]
  refine ⟨hmain, fun c hc hid => ?_⟩
  have hmem : c ∈ sortByChunkId ctxs := (List.mem_insertionSort keyLe).mpr hc
  obtain ⟨i, hlt, hget⟩ := List.getElem_of_mem hmem
  have := hmain i c (by rw [List.getElem?_eq_getElem hlt, hget]) hid
  exact List.getElem?_mem this

/-- Witness for C3: a three-window context around target id 2. -/
theorem stitch_anchor_witness :
    "target text".data ∈ stitch 2
      [⟨1, "abc".data⟩, ⟨2, "target text".data⟩, ⟨3, "xyz".data⟩] :=
  (stitch_anchor 2 [⟨1, "abc".data⟩, ⟨2, "target text".data⟩, ⟨3, "xyz".data⟩]).2
    ⟨2, "target text".data⟩ (by decide) rfl

lemma sorted_keyLt_sortByChunkId {l : List ContextChunk}
    (hnd : (l.map ContextChunk.chunk_id).Nodup) :
    List.Sorted keyLt (sortByChunkId l) := by
  have hle : List.Sorted keyLe (sortByChunkId l) := List.sorted_insertionSort keyLe l
  have hnd2 : ((sortByChunkId l).map ContextChunk.chunk_id).Nodup :=
    (((List.perm_insertionSort keyLe l).map ContextChunk.chunk_id).nodup_iff).mpr hnd
  have hne : (sortByChunkId l).Pairwise (fun a b => a.chunk_id ≠ b.chunk_id) :=
    List.pairwise_map.mp hnd2
  exact (hle.and hne).imp (fun h => lt_of_le_of_ne h.1 h.2)

/-- Claim C9: with pairwise-distinct position keys the stitched output
does not depend on arrival order: any permutation of the context chunk
list stitches to the same text, because the stitcher sorts by the key
first. -/
theorem stitch_arrival_order_invariant (targetId : Nat) (l1 l2 : List ContextChunk)
    (hp : l1.Perm l2) (hnd : (l1.map ContextChunk.chunk_id).Nodup) :
    stitch targetId l1 = stitch targetId l2 := by
  have hsorteq : sortByChunkId l1 = sortByChunkId l2 := by
    have hperm : (sortByChunkId l1).Perm (sortByChunkId l2) :=
      (List.perm_insertionSort keyLe l1).trans
        (hp.trans (List.perm_insertionSort keyLe l2).symm)
    have hnd2 : (l2.map ContextChunk.chunk_id).Nodup :=
      ((hp.map ContextChunk.chunk_id).nodup_iff).mp hnd
    exact List.eq_of_perm_of_sorted hperm
      (sorted_keyLt_sortByChunkId hnd) (sorted_keyLt_sortByChunkId hnd2)
  rw [stitch, stitch, hsorteq]

/-- Witness for C9: swapping two context windows leaves the stitched
output unchanged. -/
theorem stitch_arrival_order_invariant_witness :
    stitch 1 [⟨2, "bbb".data⟩, ⟨1, "aaa".data⟩] =
      stitch 1 [⟨1, "aaa".data⟩, ⟨2, "bbb".data⟩] :=
  stitch_arrival_order_invariant 1 _ _ (by decide) (by decide)

/-!  The two-stage retrieval pipeline (`database.py` and
`search_and_generate_response` in `app.py`). -/

/-- The vector store as seen through the two RPCs the retriever issues.
A call either raises (transport error), returns no data (`none`, which
the source maps to an empty list), or returns rows. -/
structure Store where
  summariesRpc : ℚ → Except String (Option (List SummaryMatch))
  chunksRpc : List GuidelineMatch → ℚ → Except String (Option (List ChunkMatch))

/-- `SupabaseManager.search_similar_summaries`: no try/except, so a
transport error propagates; otherwise the data, defaulting to `[]`. -/
def search_similar_summaries (store : Store) (threshold : ℚ) :
    Except String (List SummaryMatch) :=
  match store.summariesRpc threshold with
  | .error e => .error e
  | .ok none => .ok []
  | .ok (some d) => .ok d

lemma search_similar_summaries_def (store : Store) (threshold : ℚ) :
    search_similar_summaries store threshold =
      match store.summariesRpc threshold with
      | .error e => .error e
      | .ok none => .ok []
      | .ok (some d) => .ok d := rfl

/-- The `guideline_matches_table` projection built inside
`SupabaseManager.search_similar_chunks`. -/
def guidelineMatchesTable (summaryMatches : List SummaryMatch) : List GuidelineMatch :=
  summaryMatches.map (fun m => ⟨m.id, m.similarity⟩)

/-- `SupabaseManager.search_similar_chunks`, with its invocation trace:
the body wraps its single RPC call in try/except, logging and returning
`[]` on failure; the second component records the `guideline_matches`
argument of every chunk-RPC invocation the call makes. -/
def search_similar_chunksT (store : Store) (summaryMatches : List SummaryMatch)
    (threshold : ℚ) : List ChunkMatch × List (List GuidelineMatch) :=
  let table := guidelineMatchesTable summaryMatches
  let result := match store.chunksRpc table threshold with
    | .ok (some d) => d
    | .ok none => []
    | .error _ => []
  (result, [table])

lemma search_similar_chunksT_def (store : Store) (summaryMatches : List SummaryMatch)
    (threshold : ℚ) :
    search_similar_chunksT store summaryMatches threshold =
      (match store.chunksRpc (guidelineMatchesTable summaryMatches) threshold with
        | .ok (some d) => d
        | .ok none => []
        | .error _ => [],
       [guidelineMatchesTable summaryMatches]) := rfl

/-- `search_and_generate_response` up to the data handed to the answer
generator: stage-1 summary search (whose errors propagate), stage-2
chunk search, threshold filter; the result carries the summaries, the
filtered chunks, and the chunk-RPC invocation trace. -/
def search_and_generate_response (store : Store) (summaryThreshold chunkThreshold : ℚ) :
    Except String (List SummaryMatch × List ChunkMatch × List (List GuidelineMatch)) :=
  match search_similar_summaries store summaryThreshold with
  | .error e => .error e
  | .ok summaries =>
    let sc := search_similar_chunksT store summaries chunkThreshold
    .ok (summaries, filteredChunks sc.1 chunkThreshold, sc.2)

lemma search_and_generate_response_def (store : Store)
    (summaryThreshold chunkThreshold : ℚ) :
    search_and_generate_response store summaryThreshold chunkThreshold =
      match search_similar_summaries store summaryThreshold with
      | .error e => .error e
      | .ok summaries =>
        .ok (summaries,
          filteredChunks (search_similar_chunksT store summaries chunkThreshold).1
            chunkThreshold,
          (search_similar_chunksT store summaries chunkThreshold).2) := rfl

/-- A chunk the rogue store returns even for an empty scope. -/
def rogueChunk : ChunkMatch := mkChunk 9 (mkRat 1 1)

/-- A store whose summary search matches nothing but whose chunk RPC
ignores the scope table. -/
def rogueStore : Store where
  summariesRpc := fun _ => .ok (some [])
  chunksRpc := fun _ _ => .ok (some [rogueChunk])

/-- Counterexample to C1 as stated: with zero stage-1 documents the
pipeline still invokes the chunk RPC (the trace holds one call, with an
empty scope table), and against a store that ignores the scope the
returned chunk list is not empty — `app.py` has no short-circuit. -/
theorem empty_scope_still_invokes_chunk_search :
    search_and_generate_response rogueStore (mkRat 2 5) (mkRat 9 20) =
      .ok ([], [rogueChunk], [[]]) ∧
    ([[]] : List (List GuidelineMatch)) ≠ [] ∧
    [rogueChunk] ≠ ([] : List ChunkMatch) := by
  refine ⟨?_, by decide, by decide⟩
  rw [search_and_generate_response_def]
  rfl

/-- Modelled from the spec: the store-side RPC `match_chunks_with_context`
is not part of the repository source (it lives in the database); per the
spec, stage 2 uses "the set of document ids from Stage 1 as a hard scope
filter" together with the advisory chunk-similarity threshold over the
chunk corpus. -/
def match_chunks_with_context (corpus : List ChunkMatch)
    (guideline_matches : List GuidelineMatch) (threshold : ℚ) : List ChunkMatch :=
  corpus.filter (fun c =>
    (guideline_matches.map GuidelineMatch.id).contains c.guideline_id &&
    decide (threshold ≤ c.similarity))

/-- A store whose chunk RPC is the spec-modelled scoped search over a
fixed corpus. -/
def scopedStore (f : ℚ → Except String (Option (List SummaryMatch)))
    (corpus : List ChunkMatch) : Store where
  summariesRpc := f
  chunksRpc := fun table th => .ok (some (match_chunks_with_context corpus table th))

lemma match_chunks_with_context_nil (corpus : List ChunkMatch) (th : ℚ) :
    match_chunks_with_context corpus [] th = [] := by
  unfold match_chunks_with_context
  induction corpus with
  | nil => rfl
  | cons c rest ih => simp [List.filter, ih]

/-- Claim C1 amended: when stage 1 matches no documents the chunk RPC is
still invoked — exactly once, with an empty scope table — but the
scope filter of the (spec-modelled) store admits no chunks, so the
returned chunk list is empty. -/
theorem empty_scope_chunks_empty (f : ℚ → Except String (Option (List SummaryMatch)))
    (corpus : List ChunkMatch) (sTh cTh : ℚ)
    (r : List SummaryMatch × List ChunkMatch × List (List GuidelineMatch))
    (hok : search_and_generate_response (scopedStore f corpus) sTh cTh = .ok r)
    (hempty : r.1 = []) : r.2.1 = [] ∧ r.2.2 = [[]] := by
  have hrw : ∀ summaries,
      search_similar_summaries (scopedStore f corpus) sTh = .ok summaries →
      search_and_generate_response (scopedStore f corpus) sTh cTh =
        .ok (summaries,
          filteredChunks
            (match_chunks_with_context corpus (guidelineMatchesTable summaries) cTh) cTh,
          [guidelineMatchesTable summaries]) := by
    intro summaries hs
    rw [search_and_generate_response_def, hs]
    rfl
  cases hf : f sTh with
  | error e =>
    have hs : search_similar_summaries (scopedStore f corpus) sTh = .error e := by
      rw [search_similar_summaries_def]
      show (match f sTh with
        | Except.error e => Except.error e
        | Except.ok none => Except.ok []
        | Except.ok (some d) => Except.ok d) = _
      rw [hf]
    rw [search_and_generate_response_def, hs] at hok
    exact absurd hok (by simp)
  | ok data =>
    have hs : search_similar_summaries (scopedStore f corpus) sTh = .ok (data.getD []) := by
      rw [search_similar_summaries_def]
      show (match f sTh with
        | Except.error e => Except.error e
        | Except.ok none => Except.ok []
        | Except.ok (some d) => Except.ok d) = _
      rw [hf]
      cases data <;> rfl
    rw [hrw (data.getD []) hs] at hok
    have hr : (data.getD [], filteredChunks
        (match_chunks_with_context corpus (guidelineMatchesTable (data.getD [])) cTh) cTh,
        [guidelineMatchesTable (data.getD [])]) = r :=
      (Except.ok.injEq _ _).mp hok
    have h1 : data.getD [] = [] := by
      rw [← hr] at hempty
      exact hempty
    rw [← hr]
    simp only [h1]
    constructor
    · show filteredChunks (match_chunks_with_context corpus
        (guidelineMatchesTable []) cTh) cTh = []
      rw [show guidelineMatchesTable [] = [] from rfl, match_chunks_with_context_nil]
      rfl
    · rfl

/-- Witness for the amended C1 at a concrete empty-summary store. -/
theorem empty_scope_chunks_empty_witness :
    search_and_generate_response (scopedStore (fun _ => .ok none) [mkChunk 5 (mkRat 1 1)])
        (mkRat 2 5) (mkRat 9 20) = .ok ([], [], [[]]) ∧
    (([], [], [[]]) : List SummaryMatch × List ChunkMatch ×
        List (List GuidelineMatch)).2.1 = [] := by
  have hok : search_and_generate_response
      (scopedStore (fun _ => .ok none) [mkChunk 5 (mkRat 1 1)])
      (mkRat 2 5) (mkRat 9 20) = .ok ([], [], [[]]) := by
    rw [search_and_generate_response_def]
    rfl
  exact ⟨hok, (empty_scope_chunks_empty (fun _ => .ok none) [mkChunk 5 (mkRat 1 1)]
    (mkRat 2 5) (mkRat 9 20) ([], [], [[]]) hok rfl).1⟩

/-- Claim C4: a transport failure of the chunk RPC is swallowed — the
retriever returns an empty chunk list — while a transport failure of
the summary RPC propagates out of the retriever and out of
`search_and_generate_response`. -/
theorem store_failure_policy :
    (∀ (store : Store) (summaryMatches : List SummaryMatch) (th : ℚ) (e : String),
      store.chunksRpc (guidelineMatchesTable summaryMatches) th = .error e →
      (search_similar_chunksT store summaryMatches th).1 = []) ∧
    (∀ (store : Store) (th : ℚ) (e : String),
      store.summariesRpc th = .error e →
      search_similar_summaries store th = .error e) ∧
    (∀ (store : Store) (sTh cTh : ℚ) (e : String),
      store.summariesRpc sTh = .error e →
      search_and_generate_response store sTh cTh = .error e) := by
  have hsum : ∀ (store : Store) (th : ℚ) (e : String),
      store.summariesRpc th = .error e →
      search_similar_summaries store th = .error e := by
    intro store th e he
    rw [search_similar_summaries_def, he]
  refine ⟨?_, hsum, ?_⟩
  · intro store summaryMatches th e he
    rw [search_similar_chunksT_def, he]
  · intro store sTh cTh e he
    rw [search_and_generate_response_def, hsum store sTh e he]

/-- A store that fails on every call. -/
def failingStore : Store where
  summariesRpc := fun _ => .error "store unavailable"
  chunksRpc := fun _ _ => .error "store unavailable"

/-- Witness for C4 at the failing store. -/
theorem store_failure_policy_witness :
    (search_similar_chunksT failingStore [] (mkRat 9 20)).1 = [] ∧
    search_and_generate_response failingStore (mkRat 2 5) (mkRat 9 20) =
      .error "store unavailable" :=
  ⟨store_failure_policy.1 failingStore [] (mkRat 9 20) "store unavailable" rfl,
   store_failure_policy.2.2 failingStore (mkRat 2 5) (mkRat 9 20) "store unavailable" rfl⟩

/-!  Context assembly (`LLMManager._build_context` in `llm.py`). -/

/-- The metadata block the context builder emits for one guideline. -/
def metaBlock (m : Metadata) : List Char :=
  "\nGuideline: ".data ++ m.title ++ "\n".data ++
  "Version: ".data ++ m.version ++ "\n".data ++
  "Adopted Date: ".data ++ m.adopted_date.getD "N/A".data ++ "\n".data

/-- The block the context builder emits for one chunk. -/
def chunkBlock (c : ChunkMatch) : List Char :=
  "\n".data ++ c.content ++ "\n".data

/-- `LLMManager._build_context`: header, one block per metadata record,
the sections header, then one block per chunk, accumulated with `+=` in
list order. -/
def build_context (chunks : List ChunkMatch) (metadata : List Metadata) : List Char :=
  let ctx := "Guidelines Information:\n".data
  let ctx := metadata.foldl (fun acc m => acc ++ metaBlock m) ctx
  let ctx := ctx ++ "\nRelevant Sections:\n".data
  chunks.foldl (fun acc c => acc ++ chunkBlock c) ctx

lemma foldl_append_blocks {α : Type} (f : α → List Char) (init : List Char) (l : List α) :
    l.foldl (fun acc x => acc ++ f x) init = init ++ (l.map f).flatten := by
  induction l generalizing init with
  | nil => simp
  | cons a l ih => simp [List.foldl, ih, List.append_assoc]

/-- A low-similarity chunk listed before a high-similarity one, as a
store may return them. -/
def ctxLow : ChunkMatch := ⟨1, 0, "LOW".data, mkRat 1 2, []⟩

/-- The high-similarity companion of `ctxLow`. -/
def ctxHigh : ChunkMatch := ⟨2, 0, "HIGH".data, mkRat 9 10, []⟩

/-- Counterexample to C6 as stated: the chunks handed to the generation
service are the threshold-filtered list in retrieval order — the
similarity-descending sort happens only later, in the display loop — so
when the store returns a low-similarity chunk first the assembled
context differs from the similarity-ranked one. -/
theorem build_context_not_ranked :
    filteredChunks [ctxLow, ctxHigh] (mkRat 2 5) = [ctxLow, ctxHigh] ∧
    sortBySimilarityDesc [ctxLow, ctxHigh] = [ctxHigh, ctxLow] ∧
    build_context (filteredChunks [ctxLow, ctxHigh] (mkRat 2 5)) [] ≠
      build_context (sortBySimilarityDesc (filteredChunks [ctxLow, ctxHigh] (mkRat 2 5))) [] := by
  refine ⟨by decide, by decide, by decide⟩

/-- Claim C6 amended: the assembled context is one textual block
holding the header, then for each summary-match metadata record its
title, version and adopted date, then the sections header, then for
each filtered chunk — in the order the chunk search returned it, not
re-sorted — its raw content. -/
theorem build_context_structure (chunks : List ChunkMatch) (th : ℚ)
    (metadata : List Metadata) :
    build_context (filteredChunks chunks th) metadata =
      "Guidelines Information:\n".data ++
      (metadata.map metaBlock).flatten ++
      "\nRelevant Sections:\n".data ++
      ((filteredChunks chunks th).map chunkBlock).flatten := by
  rw [build_context]
  rw [foldl_append_blocks metaBlock, foldl_append_blocks chunkBlock]

/-!  Malformed store rows (`app.py` line 111 reading `chunk[similarity]`). -/

/-- A store row as a raw dictionary: each required key may be absent. -/
structure RawChunk where
  id? : Option Nat
  similarity? : Option ℚ
  content? : Option (List Char)
  deriving DecidableEq

/-- Python dictionary access `chunk[similarity]`: raises `KeyError`
when the key is absent. -/
def pyGetSimilarity (c : RawChunk) : Except String ℚ :=
  match c.similarity? with
  | some s => .ok s
  | none => .error "KeyError: similarity"

/-- The list comprehension of `app.py` line 111 over raw store rows:
rows are inspected left to right and a missing `similarity` key raises,
aborting the whole comprehension. -/
def filteredChunksChecked (chunks : List RawChunk) (th : ℚ) :
    Except String (List RawChunk) :=
  match chunks with
  | [] => .ok []
  | c :: rest =>
    match pyGetSimilarity c with
    | .error e => .error e
    | .ok s =>
      match filteredChunksChecked rest th with
      | .error e => .error e
      | .ok tail => .ok (if th ≤ s then c :: tail else tail)

/-- A well-formed row. -/
def goodRaw : RawChunk := ⟨some 1, some (mkRat 1 1), some "good".data⟩

/-- A row with the `similarity` key missing. -/
def badRaw : RawChunk := ⟨some 2, none, some "bad".data⟩

/-- Counterexample to C7 as stated: one malformed record does not get
dropped — the comprehension raises `KeyError` and the whole batch
fails. -/
theorem malformed_record_fails_batch :
    filteredChunksChecked [goodRaw, badRaw] (mkRat 9 20) =
      .error "KeyError: similarity" ∧
    (filteredChunksChecked [goodRaw, badRaw] (mkRat 9 20)).isOk = false := by
  refine ⟨rfl, rfl⟩

/-- Claim C7 amended: when every row carries its `similarity` key the
comprehension returns the threshold filter of the batch, but a single
row with the key missing makes the whole batch fail with a `KeyError`
(which `search_and_generate_response` logs and re-raises) instead of
being dropped. -/
theorem filteredChunksChecked_spec (chunks : List RawChunk) (th : ℚ) :
    ((∀ c ∈ chunks, (c.similarity?).isSome) →
      filteredChunksChecked chunks th =
        .ok (chunks.filter (fun c =>
          match c.similarity? with
          | some s => decide (th ≤ s)
          | none => false))) ∧
    ((∃ c ∈ chunks, c.similarity? = none) →
      ∃ e, filteredChunksChecked chunks th = .error e) := by
  induction chunks with
  | nil =>
    exact ⟨fun _ => rfl, fun h => absurd h (by simp)⟩
  | cons c rest ih =>
    constructor
    · intro hall
      have hc := hall c (by simp)
      obtain ⟨s, hs⟩ := Option.isSome_iff_exists.mp hc
      have htail := ih.1 (fun d hd => hall d (by simp [hd]))
      rw [filteredChunksChecked, pyGetSimilarity]
      rw [hs, htail]
      by_cases hts : th ≤ s <;> simp [List.filter, hs, hts]
    · rintro ⟨d, hd, hdnone⟩
      rcases List.mem_cons.mp hd with rfl | hdrest
      · refine ⟨"KeyError: similarity", ?_⟩
        rw [filteredChunksChecked, pyGetSimilarity, hdnone]
      · obtain ⟨e, he⟩ := ih.2 ⟨d, hdrest, hdnone⟩
        rw [filteredChunksChecked]
        cases hopt : c.similarity? with
        | none => exact ⟨"KeyError: similarity", by rw [pyGetSimilarity, hopt]⟩
        | some s => exact ⟨e, by rw [pyGetSimilarity, hopt, he]⟩

/-- Witness for the amended C7: an intact batch filters, a batch with
one malformed row fails. -/
theorem filteredChunksChecked_spec_witness :
    filteredChunksChecked [goodRaw] (mkRat 9 20) = .ok [goodRaw] ∧
    ∃ e, filteredChunksChecked [goodRaw, badRaw] (mkRat 9 20) = .error e := by
  constructor
  · rw [(filteredChunksChecked_spec [goodRaw] (mkRat 9 20)).1 (by decide)]
    exact congrArg Except.ok (by decide)
  · exact (filteredChunksChecked_spec [goodRaw, badRaw] (mkRat 9 20)).2
      ⟨badRaw, by decide, rfl⟩

end GdprApp
